import Mathlib

/-!
Verification of the PWDumpX / lsadump2 extraction engine against its
specification.  The definitions below are shallow embeddings of the C
functions in src/powershellsec/Tools/PWDumpX/Source/DumpExt.c,
src/powershellsec/Tools/PWDumpX/Source/DumpSvc.c,
src/powershellsec/Tools/lsadump2/lsadump2.c and
src/powershellsec/Tools/lsadump2/dumplsa.c.  Byte buffers are lists of
natural numbers (each element a byte value), machine DWORD arithmetic is
modelled with explicit reduction modulo 2 ^ 32, and the effect of stateful
Win32 calls is modelled by passing an oracle describing the outcome of each
external call.
-/

set_option autoImplicit false

set_option maxRecDepth 8000

/-- Bytes of a buffer at offsets off, off + 1, ..., off + len - 1. -/
def byteSlice (l : List Nat) (off len : Nat) : List Nat := (l.drop off).take len

/-- Modelled from the spec: md5.c is not under src/.  The MD5 streaming context
used by md5_starts, md5_update and md5_finish is modelled by accumulating the
bytes passed to md5_update; md5_finish applies an opaque digest function to the
accumulated stream.  This is the standard streaming semantics of MD5: the
digest of the concatenation of all updates. -/
structure Md5Ctx where
  buf : List Nat

/-- Modelled from the spec: md5_starts initialises an empty MD5 context. -/
def md5_starts : Md5Ctx := ⟨[]⟩

/-- Modelled from the spec: md5_update appends input bytes to the stream. -/
def md5_update (ctx : Md5Ctx) (input : List Nat) : Md5Ctx := ⟨ctx.buf ++ input⟩

/-- Modelled from the spec: md5_finish applies the opaque digest function md5fn
to the accumulated stream. -/
def md5_finish (md5fn : List Nat → List Nat) (ctx : Md5Ctx) : List Nat := md5fn ctx.buf

/-- DumpExt.c DumpPWCache line 276: memset(k_ipad, 0x36, 64). -/
def k_ipad : List Nat := List.replicate 64 0x36

/-- DumpExt.c DumpPWCache line 277: memset(k_opad, 0x5c, 64). -/
def k_opad : List Nat := List.replicate 64 0x5c

/-- DumpExt.c DumpPWCache lines 300-304: bKey1[j] = pLsaKey[j] ^ k_ipad[j] for
j < 64.  The C code reads 64 bytes from the NL$KM secret buffer; bytes beyond
the end of the supplied key list are modelled as 0 (spec section 4.4 step 2:
the master key is zero-padded to 64 bytes). -/
def bKey1 (lsaKey : List Nat) : List Nat :=
  (List.range 64).map (fun j => Nat.xor (lsaKey.getD j 0) (k_ipad.getD j 0))

/-- DumpExt.c DumpPWCache lines 300-304: bKey2[j] = pLsaKey[j] ^ k_opad[j] for j < 64. -/
def bKey2 (lsaKey : List Nat) : List Nat :=
  (List.range 64).map (fun j => Nat.xor (lsaKey.getD j 0) (k_opad.getD j 0))

/-- DumpExt.c DumpPWCache lines 306-316: bDigest = MD5(bKey1 || bCacheVal[64..80]);
then bDigest = MD5(bKey2 || bDigest); the result keys the RC4 state.  The two
MD5 computations are written with the streaming context exactly as in the C. -/
def cacheSessionKey (md5fn : List Nat → List Nat) (lsaKey record : List Nat) : List Nat :=
  let ctx1 := md5_update (md5_update md5_starts (bKey1 lsaKey)) (byteSlice record 64 16)
  let bDigest := md5_finish md5fn ctx1
  let ctx2 := md5_update (md5_update md5_starts (bKey2 lsaKey)) bDigest
  md5_finish md5fn ctx2

/-- DumpExt.c DumpPWCache lines 316-317: rc4_setup with the 16-byte digest and
rc4_crypt(bCacheVal + 96, dwSize - 96) decrypting the record in place from
offset 96 to the end.  rc4fn is the opaque RC4 encrypt/decrypt primitive
(rc4.c is not under src/), taking the key and the data. -/
def rc4DecryptedRecord (md5fn : List Nat → List Nat)
    (rc4fn : List Nat → List Nat → List Nat) (lsaKey record : List Nat) : List Nat :=
  record.take 96 ++ rc4fn (cacheSessionKey md5fn lsaKey record) (record.drop 96)

/-- Modelled from the spec (4.4 step 2): the master key repeated/truncated to
64 bytes and zero-padded. -/
def spec_padTo64 (masterKey : List Nat) : List Nat :=
  masterKey.take 64 ++ List.replicate (64 - masterKey.length) 0

/-- Modelled from the spec (4.4 step 2): the inner keying pad, the padded
master key XOR-ed with the constant byte 0x36. -/
def spec_innerPad (masterKey : List Nat) : List Nat :=
  (spec_padTo64 masterKey).map (fun b => Nat.xor b 0x36)

/-- Modelled from the spec (4.4 step 2): the outer keying pad, the padded
master key XOR-ed with the constant byte 0x5c. -/
def spec_outerPad (masterKey : List Nat) : List Nat :=
  (spec_padTo64 masterKey).map (fun b => Nat.xor b 0x5c)

/-- Modelled from the spec (4.4 step 3): sessionKey =
MD5(outerPad || MD5(innerPad || record[64:80])), the HMAC-MD5 construction. -/
def spec_sessionKey (md5fn : List Nat → List Nat) (masterKey record : List Nat) : List Nat :=
  md5fn (spec_outerPad masterKey ++ md5fn (spec_innerPad masterKey ++ byteSlice record 64 16))

theorem spec_padTo64_length (mk : List Nat) : (spec_padTo64 mk).length = 64 := by
  simp [spec_padTo64]
  omega

theorem spec_padTo64_getD (mk : List Nat) (j : Nat) (hj : j < 64) :
    (spec_padTo64 mk).getD j 0 = mk.getD j 0 := by
  unfold spec_padTo64
  rcases Nat.lt_or_ge j mk.length with h | h
  · have hjt : j < (mk.take 64).length := by
      simp only [List.length_take]
      omega
    rw [List.getD_append _ _ _ _ hjt, List.getD_eq_getElem _ _ hjt,
      List.getElem_take, List.getD_eq_getElem _ _ h]
  · have hle : (mk.take 64).length ≤ j := by
      simp only [List.length_take]
      omega
    rw [List.getD_append_right _ _ _ _ hle, List.getD_eq_getElem?_getD,
      List.getElem?_getD_replicate_default_eq, List.getD_eq_default _ _ h]

theorem bKey1_eq_spec_innerPad (mk : List Nat) : bKey1 mk = spec_innerPad mk := by
  apply List.ext_getElem
  · simp [bKey1, spec_innerPad, spec_padTo64_length]
  · intro i h1 h2
    have hi : i < 64 := by simpa [bKey1] using h1
    simp only [bKey1, spec_innerPad, List.getElem_map, List.getElem_range]
    have hki : i < k_ipad.length := by
      simpa [k_ipad] using hi
    have hk : k_ipad.getD i 0 = 0x36 := by
      rw [List.getD_eq_getElem _ _ hki]
      exact List.getElem_replicate _ _
    have hilen : i < (spec_padTo64 mk).length := by
      rw [spec_padTo64_length]
      exact hi
    rw [hk, ← List.getD_eq_getElem (spec_padTo64 mk) 0 hilen, spec_padTo64_getD mk i hi]

theorem bKey2_eq_spec_outerPad (mk : List Nat) : bKey2 mk = spec_outerPad mk := by
  apply List.ext_getElem
  · simp [bKey2, spec_outerPad, spec_padTo64_length]
  · intro i h1 h2
    have hi : i < 64 := by simpa [bKey2] using h1
    simp only [bKey2, spec_outerPad, List.getElem_map, List.getElem_range]
    have hko : i < k_opad.length := by
      simpa [k_opad] using hi
    have hk : k_opad.getD i 0 = 0x5c := by
      rw [List.getD_eq_getElem _ _ hko]
      exact List.getElem_replicate _ _
    have hilen : i < (spec_padTo64 mk).length := by
      rw [spec_padTo64_length]
      exact hi
    rw [hk, ← List.getD_eq_getElem (spec_padTo64 mk) 0 hilen, spec_padTo64_getD mk i hi]

/-- C1: in the cache decode path the stream-cipher session key is derived by
the HMAC-MD5 construction (inner pad 0x36, outer pad 0x5c, inner digest over
record[64:80]), and the record bytes from offset 96 to the end are
stream-decrypted in place with that key while the first 96 bytes are
untouched. -/
theorem C1_session_key_is_hmac_md5 (md5fn : List Nat → List Nat)
    (rc4fn : List Nat → List Nat → List Nat) (masterKey record : List Nat)
    (hrec : 96 ≤ record.length) :
    cacheSessionKey md5fn masterKey record = spec_sessionKey md5fn masterKey record
    ∧ rc4DecryptedRecord md5fn rc4fn masterKey record
        = record.take 96 ++ rc4fn (spec_sessionKey md5fn masterKey record) (record.drop 96)
    ∧ byteSlice (rc4DecryptedRecord md5fn rc4fn masterKey record) 0 96 = byteSlice record 0 96 := by
  have hkey : cacheSessionKey md5fn masterKey record
      = spec_sessionKey md5fn masterKey record := by
    simp [cacheSessionKey, spec_sessionKey, md5_starts, md5_update, md5_finish,
      bKey1_eq_spec_innerPad, bKey2_eq_spec_outerPad]
  refine ⟨hkey, by rw [rc4DecryptedRecord, hkey], ?_⟩
  have hlen : 96 ≤ (record.take 96).length := by
    simp only [List.length_take]
    omega
  simp only [rc4DecryptedRecord, byteSlice, List.drop_zero]
  rw [List.take_append_of_le_length hlen, List.take_take]
  simp

def wMd5 : List Nat → List Nat := fun l => l.take 16

def wRc4 : List Nat → List Nat → List Nat := fun _ d => d

def wKey : List Nat := List.replicate 16 7

def wRecord : List Nat := List.range 128

theorem C1_witness :
    96 ≤ wRecord.length
    ∧ (cacheSessionKey wMd5 wKey wRecord = spec_sessionKey wMd5 wKey wRecord
      ∧ rc4DecryptedRecord wMd5 wRc4 wKey wRecord
          = wRecord.take 96 ++ wRc4 (spec_sessionKey wMd5 wKey wRecord) (wRecord.drop 96)
      ∧ byteSlice (rc4DecryptedRecord wMd5 wRc4 wKey wRecord) 0 96 = byteSlice wRecord 0 96) :=
  ⟨by simp [wRecord], C1_session_key_is_hmac_md5 wMd5 wRc4 wKey wRecord (by simp [wRecord])⟩

/-- DumpExt.c DumpPWCache lines 319-320: dwJoke[i] = 2 * ((len / 2) % 2), the
2-byte alignment padding that follows a variable-length field of byte length
len in the cache record layout. -/
def cachePad (len : Nat) : Nat := 2 * ((len / 2) % 2)

/-- DumpExt.c DumpPWCache lines 324-331: the extraction loop for
j = 0, 2, 4, ... < len copies buf[base + j], producing ceil(len / 2) bytes
(the low byte of each UTF-16 code unit). -/
def extractField (buf : List Nat) (base len : Nat) : List Nat :=
  (List.range ((len + 1) / 2)).map (fun k => buf.getD (base + 2 * k) 0)

/-- Data model of section 3: one decoded cache entry. -/
structure CacheEntry where
  username : List Nat
  domain : List Nat
  dnsDomain : List Nat
  verifier : List Nat

/-- DumpExt.c DumpPWCache lines 294-353 on the buffer after in-place
decryption: length fields at offsets 0, 2 and 60 (these lie in the clear
region below 96 and are unchanged by the decryption), the username at offset
168, domain and DNS domain after it with the alignment padding, and the
16-byte verifier at offset 96. -/
def cacheEntryOf (buf : List Nat) : CacheEntry :=
  let u := buf.getD 0 0
  let d := buf.getD 2 0
  let dn := buf.getD 60 0
  { username := extractField buf 168 u,
    domain := extractField buf (168 + u + cachePad u) d,
    dnsDomain := extractField buf (168 + u + cachePad u + d + cachePad d) dn,
    verifier := byteSlice buf 96 16 }

/-- DumpExt.c DumpPWCache lines 292-298: the only guards applied to a cache
record before it is decrypted and extracted are dwSize != 0 and
bCacheVal[0] != 0.  The record list models the dwSize bytes returned by
RegQueryValueEx. -/
def cacheRecordProcessed (record : List Nat) : Bool :=
  decide (record.length ≠ 0) && decide (record.getD 0 0 ≠ 0)

/-- DumpExt.c DumpPWCache line 317: the byte count passed to rc4_crypt is the
DWORD value dwSize - 96, which wraps modulo 2 ^ 32 when dwSize < 96. -/
def rc4ByteCount (dwSize : Nat) : Nat := (dwSize + 2 ^ 32 - 96) % 2 ^ 32

/-- Modelled from the spec (4.4 steps 1 and 7 and the closing sentence of
4.4): Decode must fail when the usable record length is at most 96, when the
username length field is 0, or when one of the three field extractions would
read past the supplied record length. -/
def spec_decodeFails (record : List Nat) : Bool :=
  let u := record.getD 0 0
  let d := record.getD 2 0
  let dn := record.getD 60 0
  decide (record.length ≤ 96) || decide (u = 0)
    || decide (record.length < 168 + u)
    || decide (record.length < 168 + u + cachePad u + d)
    || decide (record.length < 168 + u + cachePad u + d + cachePad d + dn)

/-- Concrete 50-byte cache record whose username length field is 1. -/
def shortRecord : List Nat := 1 :: List.replicate 49 0

/-- C2, code_bug evidence: a 50-byte record with a nonzero username length
field must be a decode failure according to the claim, but the code guards
only against dwSize = 0 and a zero username length field, so the record is
processed, and the DWORD byte count handed to rc4_crypt wraps to
4294967250, far beyond the 4000 bytes that follow offset 96 in the 4096-byte
stack buffer. -/
theorem C2_short_record_not_rejected :
    spec_decodeFails shortRecord = true
    ∧ cacheRecordProcessed shortRecord = true
    ∧ rc4ByteCount shortRecord.length = 4294967250
    ∧ 4096 - 96 < rc4ByteCount shortRecord.length := by decide

/-- C3, counterexample: the claim asserts pad2 = 2 for domainLen = 4, but the
padding formula it itself states, pad2 = 2 * ((domainLen / 2) mod 2), gives
2 * ((4 / 2) % 2) = 2 * 0 = 0, and the code computes 0. -/
theorem C3_pad2_of_domainLen4 : cachePad 4 = 0 ∧ cachePad 4 ≠ 2 := by decide

/-- C3 as amended: the three length fields are read at offsets 0, 2 and 60;
the username is extracted at byte offset 168, the domain at
168 + usernameLen + pad1 and the DNS domain at
168 + usernameLen + pad1 + domainLen + pad2 with
pad1 = 2 * ((usernameLen / 2) mod 2) and pad2 = 2 * ((domainLen / 2) mod 2);
for usernameLen = 8 and domainLen = 4 the padding amounts are pad1 = 0 and
pad2 = 0, placing the domain at offset 176 and the DNS domain at 180. -/
theorem C3_field_offsets (buf : List Nat) :
    (cacheEntryOf buf).username = extractField buf 168 (buf.getD 0 0)
    ∧ (cacheEntryOf buf).domain
        = extractField buf (168 + buf.getD 0 0 + 2 * ((buf.getD 0 0 / 2) % 2)) (buf.getD 2 0)
    ∧ (cacheEntryOf buf).dnsDomain
        = extractField buf
            (168 + buf.getD 0 0 + 2 * ((buf.getD 0 0 / 2) % 2) + buf.getD 2 0
              + 2 * ((buf.getD 2 0 / 2) % 2))
            (buf.getD 60 0)
    ∧ (buf.getD 0 0 = 8 → buf.getD 2 0 = 4 →
        cachePad 8 = 0 ∧ cachePad 4 = 0
        ∧ (cacheEntryOf buf).domain = extractField buf 176 4
        ∧ (cacheEntryOf buf).dnsDomain = extractField buf 180 (buf.getD 60 0)) := by
  refine ⟨rfl, rfl, rfl, ?_⟩
  intro h8 h4
  have ed : (cacheEntryOf buf).domain
      = extractField buf (168 + buf.getD 0 0 + cachePad (buf.getD 0 0)) (buf.getD 2 0) := rfl
  have en : (cacheEntryOf buf).dnsDomain
      = extractField buf
          (168 + buf.getD 0 0 + cachePad (buf.getD 0 0) + buf.getD 2 0
            + cachePad (buf.getD 2 0))
          (buf.getD 60 0) := rfl
  refine ⟨by decide, by decide, ?_, ?_⟩
  · rw [ed, h8, h4]
    norm_num [cachePad]
  · rw [en, h8, h4]
    norm_num [cachePad]

/-- Concrete buffer with usernameLen = 8 and domainLen = 4. -/
def wCacheBuf : List Nat := 8 :: 0 :: 4 :: List.replicate 197 5

theorem C3_witness :
    wCacheBuf.getD 0 0 = 8 ∧ wCacheBuf.getD 2 0 = 4
    ∧ (cacheEntryOf wCacheBuf).domain = extractField wCacheBuf 176 4
    ∧ (cacheEntryOf wCacheBuf).dnsDomain = extractField wCacheBuf 180 (wCacheBuf.getD 60 0) :=
  ⟨by decide, by decide,
    ((C3_field_offsets wCacheBuf).2.2.2 (by decide) (by decide)).2.2⟩

/-- Oracle for the outcome of each external call made by the injection
routines: loader-address resolution (the three GetProcAddress calls),
VirtualAllocEx, the two WriteProcessMemory calls and CreateRemoteThread. -/
structure InjectEnv where
  loaderOk : Bool
  allocOk : Bool
  writeArgsOk : Bool
  writeCodeOk : Bool
  threadOk : Bool

/-- Observable result of an injection routine: the size requested from
VirtualAllocEx, the successful remote writes as (offset from base, byte
count) pairs, the remote thread start address and argument as offsets from
the allocation base, whether the remote allocation is still mapped when the
routine returns, and the error messages reported. -/
structure InjectOutcome where
  allocRequest : Option Nat
  writes : List (Nat × Nat)
  threadStart : Option Nat
  threadArg : Option Nat
  remoteAllocLiveAtReturn : Bool
  errors : List String

def msgLoadKernel32 : String := "ERROR! Cannot load Kernel32.dll functions on remote host.\n"

def msgAllocFail : String := "ERROR! Cannot allocate virtual memory on remote host.\n"

def msgWriteFail : String := "ERROR! Cannot write to process memory on remote host.\n"

def msgThreadFail : String := "ERROR! Cannot create LSASS thread on remote host.\n"

def msgVirtualAllocExFailed : String := "VirtualAllocEx failed"

def msgWriteProcessMemoryFailed : String := "WriteProcessMemory failed"

def msgCreateRemoteThreadFailed : String := "CreateRemoteThread failed"

/-- DumpSvc.c InjectDLL lines 325-397: dwBytesToAlloc = dwFunctionSize +
sizeof(THREAD_ARGS) + 4; the argument block is written at the allocation
base, the thunk at base + sizeof(THREAD_ARGS) + 4; the remote thread starts
at the copied thunk with the allocation base as its argument.  VirtualFreeEx
is reached only on the full success path (after the thread is created and
waited on); every failure path merely writes an error message and returns. -/
def injectDLL_PWDumpX (env : InjectEnv) (argsSize thunkSize : Nat) : InjectOutcome :=
  if env.loaderOk = false then
    ⟨none, [], none, none, false, [msgLoadKernel32]⟩
  else
    let dwBytesToAlloc := thunkSize + argsSize + 4
    if env.allocOk = false then
      ⟨some dwBytesToAlloc, [], none, none, false, [msgAllocFail]⟩
    else if env.writeArgsOk = false then
      ⟨some dwBytesToAlloc, [], none, none, true, [msgWriteFail]⟩
    else if env.writeCodeOk = false then
      ⟨some dwBytesToAlloc, [(0, argsSize)], none, none, true, [msgWriteFail]⟩
    else if env.threadOk = false then
      ⟨some dwBytesToAlloc, [(0, argsSize), (argsSize + 4, thunkSize)], none, none, true,
        [msgThreadFail]⟩
    else
      ⟨some dwBytesToAlloc, [(0, argsSize), (argsSize + 4, thunkSize)], some (argsSize + 4),
        some 0, false, []⟩

/-- lsadump2.c InjectDll lines 239-318: same layout arithmetic as
injectDLL_PWDumpX (dwBytesToAlloc = dwFuncSize + sizeof(REMOTE_INFO) + 4,
code at base + sizeof(REMOTE_INFO) + 4, thread argument = base).  The
GetProcAddress results are not checked, so there is no loader failure path.
Failures after a successful allocation jump to the exit label, which always
calls VirtualFreeEx; an allocation failure returns before anything was
allocated. -/
def injectDll_lsadump2 (env : InjectEnv) (argsSize thunkSize : Nat) : InjectOutcome :=
  let dwBytesToAlloc := thunkSize + argsSize + 4
  if env.allocOk = false then
    ⟨some dwBytesToAlloc, [], none, none, false, [msgVirtualAllocExFailed]⟩
  else if env.writeArgsOk = false then
    ⟨some dwBytesToAlloc, [], none, none, false, [msgWriteProcessMemoryFailed]⟩
  else if env.writeCodeOk = false then
    ⟨some dwBytesToAlloc, [(0, argsSize)], none, none, false, [msgWriteProcessMemoryFailed]⟩
  else if env.threadOk = false then
    ⟨some dwBytesToAlloc, [(0, argsSize), (argsSize + 4, thunkSize)], none, none, false,
      [msgCreateRemoteThreadFailed]⟩
  else
    ⟨some dwBytesToAlloc, [(0, argsSize), (argsSize + 4, thunkSize)], some (argsSize + 4),
      some 0, false, []⟩

/-- C4: on the success path of both injection routines the remote allocation
size is exactly argumentBlockSize + 4 + thunkByteLength, the argument block
is written at the base, the thunk bytes are written argumentBlockSize + 4
bytes after the base, and the remote thread starts at the copied thunk with
the allocation base (offset 0) as its single argument. -/
theorem C4_injection_layout (env : InjectEnv) (argsSize thunkSize : Nat)
    (hl : env.loaderOk = true) (ha : env.allocOk = true) (h1 : env.writeArgsOk = true)
    (h2 : env.writeCodeOk = true) (ht : env.threadOk = true) :
    (injectDLL_PWDumpX env argsSize thunkSize).allocRequest = some (argsSize + 4 + thunkSize)
    ∧ (injectDLL_PWDumpX env argsSize thunkSize).writes = [(0, argsSize), (argsSize + 4, thunkSize)]
    ∧ (injectDLL_PWDumpX env argsSize thunkSize).threadStart = some (argsSize + 4)
    ∧ (injectDLL_PWDumpX env argsSize thunkSize).threadArg = some 0
    ∧ (injectDll_lsadump2 env argsSize thunkSize).allocRequest = some (argsSize + 4 + thunkSize)
    ∧ (injectDll_lsadump2 env argsSize thunkSize).writes
        = [(0, argsSize), (argsSize + 4, thunkSize)]
    ∧ (injectDll_lsadump2 env argsSize thunkSize).threadStart = some (argsSize + 4)
    ∧ (injectDll_lsadump2 env argsSize thunkSize).threadArg = some 0 := by
  simp [injectDLL_PWDumpX, injectDll_lsadump2, hl, ha, h1, h2, ht]
  omega

def wEnvOk : InjectEnv := ⟨true, true, true, true, true⟩

theorem C4_witness :
    (injectDLL_PWDumpX wEnvOk 660 64).allocRequest = some (660 + 4 + 64)
    ∧ (injectDLL_PWDumpX wEnvOk 660 64).writes = [(0, 660), (660 + 4, 64)]
    ∧ (injectDLL_PWDumpX wEnvOk 660 64).threadStart = some (660 + 4)
    ∧ (injectDLL_PWDumpX wEnvOk 660 64).threadArg = some 0
    ∧ (injectDll_lsadump2 wEnvOk 660 64).allocRequest = some (660 + 4 + 64)
    ∧ (injectDll_lsadump2 wEnvOk 660 64).writes = [(0, 660), (660 + 4, 64)]
    ∧ (injectDll_lsadump2 wEnvOk 660 64).threadStart = some (660 + 4)
    ∧ (injectDll_lsadump2 wEnvOk 660 64).threadArg = some 0 :=
  C4_injection_layout wEnvOk 660 64 rfl rfl rfl rfl rfl

def wEnvWriteFail : InjectEnv := ⟨true, true, false, true, true⟩

def wEnvThreadFail : InjectEnv := ⟨true, true, true, true, false⟩

/-- C5, code_bug evidence: in PWDumpX InjectDLL, when the first remote write
(or thread creation) fails after a successful VirtualAllocEx, an error is
reported but the routine returns with the remote allocation still mapped,
because VirtualFreeEx is only reached on the full success path; lsadump2
InjectDll frees the allocation on the same failure paths via its exit label. -/
theorem C5_pwdumpx_leaks_on_failure :
    (injectDLL_PWDumpX wEnvWriteFail 660 64).remoteAllocLiveAtReturn = true
    ∧ (injectDLL_PWDumpX wEnvWriteFail 660 64).errors = [msgWriteFail]
    ∧ (injectDLL_PWDumpX wEnvThreadFail 660 64).remoteAllocLiveAtReturn = true
    ∧ (injectDLL_PWDumpX wEnvThreadFail 660 64).errors = [msgThreadFail]
    ∧ (injectDll_lsadump2 wEnvWriteFail 660 64).remoteAllocLiveAtReturn = false
    ∧ (injectDll_lsadump2 wEnvThreadFail 660 64).remoteAllocLiveAtReturn = false
    ∧ (injectDLL_PWDumpX wEnvOk 660 64).remoteAllocLiveAtReturn = false := by
  refine ⟨rfl, rfl, rfl, rfl, rfl, rfl, rfl⟩

/-- Uppercase hex digit character for a value below 16, as printed by %02X. -/
def hexDigit (n : Nat) : Char := if n < 10 then Char.ofNat (48 + n) else Char.ofNat (55 + n)

/-- Two-character %02X rendering of a byte. -/
def hexByte (b : Nat) : String := String.mk [hexDigit (b / 16), hexDigit (b % 16)]

/-- Hex rendering of a byte sequence: the sprintf loop emitting %02X per byte. -/
def hexBytes : List Nat → String
  | [] => ""
  | b :: rest => hexByte b ++ hexBytes rest

/-- Little-endian DWORD assembled from four bytes: the value seen through the
unsigned HashData[ ] overlay after memcpy on a little-endian machine. -/
def toLE32 (b0 b1 b2 b3 : Nat) : Nat := b0 + 256 * b1 + 65536 * b2 + 16777216 * b3

/-- DWORD i of the 32-byte hash blob, i.e. HashData[i]. -/
def hashDword (blob : List Nat) (i : Nat) : Nat :=
  toLE32 (blob.getD (4 * i) 0) (blob.getD (4 * i + 1) 0) (blob.getD (4 * i + 2) 0)
    (blob.getD (4 * i + 3) 0)

/-- DumpExt.c DumpPWHashes line 777: the comparison of HashData[4..7] with the
empty LM hash pattern. -/
def lmEmptyCheck (blob : List Nat) : Bool :=
  decide (hashDword blob 4 = 0x35b4d3aa) && decide (hashDword blob 5 = 0xee0414b5)
    && decide (hashDword blob 6 = 0x35b4d3aa) && decide (hashDword blob 7 = 0xee0414b5)

/-- DumpExt.c DumpPWHashes line 793: the comparison of HashData[0..3] with the
empty NT hash pattern. -/
def ntEmptyCheck (blob : List Nat) : Bool :=
  decide (hashDword blob 0 = 0xe0cfd631) && decide (hashDword blob 1 = 0x31e96ad1)
    && decide (hashDword blob 2 = 0xd7593cb7) && decide (hashDword blob 3 = 0xc089c0e0)

def noPasswordSentinel : String := "NO PASSWORD*********************"

/-- DumpExt.c DumpPWHashes lines 777-791: the LM field of the output line,
rendered from bytes 16..31 of the current-hash blob. -/
def lmHashField (blob : List Nat) : String :=
  if lmEmptyCheck blob then noPasswordSentinel else hexBytes (byteSlice blob 16 16)

/-- DumpExt.c DumpPWHashes lines 793-807: the NT field of the output line,
rendered from bytes 0..15 of the current-hash blob. -/
def ntHashField (blob : List Nat) : String :=
  if ntEmptyCheck blob then noPasswordSentinel else hexBytes (byteSlice blob 0 16)

/-- DumpExt.c DumpPWHistoryHashes lines 1097-1111: the identical comparison
and rendering applied to each decoded 32-byte history buffer. -/
def historyLmHashField (blob : List Nat) : String :=
  if lmEmptyCheck blob then noPasswordSentinel else hexBytes (byteSlice blob 16 16)

/-- DumpExt.c DumpPWHistoryHashes lines 1113-1127: NT half of a decoded
history buffer. -/
def historyNtHashField (blob : List Nat) : String :=
  if ntEmptyCheck blob then noPasswordSentinel else hexBytes (byteSlice blob 0 16)

/-- Well-known empty LM hash, aad3b435b51404ee repeated, as a byte sequence. -/
def emptyLMBytes : List Nat :=
  [0xAA, 0xD3, 0xB4, 0x35, 0xB5, 0x14, 0x04, 0xEE,
   0xAA, 0xD3, 0xB4, 0x35, 0xB5, 0x14, 0x04, 0xEE]

/-- Well-known empty NT hash 31d6cfe0d16ae931b73c59d7e0c089c0 as a byte sequence. -/
def emptyNTBytes : List Nat :=
  [0x31, 0xD6, 0xCF, 0xE0, 0xD1, 0x6A, 0xE9, 0x31,
   0xB7, 0x3C, 0x59, 0xD7, 0xE0, 0xC0, 0x89, 0xC0]

theorem sentinel_ne_hex_lm : noPasswordSentinel ≠ hexBytes emptyLMBytes := by decide

theorem sentinel_ne_hex_nt : noPasswordSentinel ≠ hexBytes emptyNTBytes := by decide

/-- C6: for any 32-byte current-hash blob, bytes 16..31 render as the LM field
and bytes 0..15 as the NT field; whenever a half equals the well-known empty
hash constant for its type, the rendered field is the literal sentinel and
not the hex of that constant, and the decoded-history rendering applies the
same check. -/
theorem C6_empty_hash_sentinel (b0 b1 b2 b3 b4 b5 b6 b7 b8 b9 b10 b11 b12 b13 b14 b15
    b16 b17 b18 b19 b20 b21 b22 b23 b24 b25 b26 b27 b28 b29 b30 b31 : Nat)
    (blob : List Nat)
    (hblob : blob = [b0, b1, b2, b3, b4, b5, b6, b7, b8, b9, b10, b11, b12, b13, b14, b15,
      b16, b17, b18, b19, b20, b21, b22, b23, b24, b25, b26, b27, b28, b29, b30, b31]) :
    (byteSlice blob 16 16 = emptyLMBytes →
      lmHashField blob = noPasswordSentinel ∧ lmHashField blob ≠ hexBytes emptyLMBytes)
    ∧ (byteSlice blob 0 16 = emptyNTBytes →
      ntHashField blob = noPasswordSentinel ∧ ntHashField blob ≠ hexBytes emptyNTBytes)
    ∧ historyLmHashField blob = lmHashField blob
    ∧ historyNtHashField blob = ntHashField blob := by
  subst hblob
  refine ⟨?_, ?_, rfl, rfl⟩
  · intro h
    have h2 : [b16, b17, b18, b19, b20, b21, b22, b23, b24, b25, b26, b27, b28, b29,
        b30, b31] = emptyLMBytes := h
    simp only [emptyLMBytes, List.cons.injEq, and_true] at h2
    obtain ⟨e16, e17, e18, e19, e20, e21, e22, e23, e24, e25, e26, e27, e28, e29, e30, e31⟩ := h2
    subst e16 e17 e18 e19 e20 e21 e22 e23 e24 e25 e26 e27 e28 e29 e30 e31
    constructor
    · norm_num [lmHashField, lmEmptyCheck, hashDword, toLE32]
    · norm_num [lmHashField, lmEmptyCheck, hashDword, toLE32]
      exact sentinel_ne_hex_lm
  · intro h
    have h2 : [b0, b1, b2, b3, b4, b5, b6, b7, b8, b9, b10, b11, b12, b13, b14, b15]
        = emptyNTBytes := h
    simp only [emptyNTBytes, List.cons.injEq, and_true] at h2
    obtain ⟨e0, e1, e2, e3, e4, e5, e6, e7, e8, e9, e10, e11, e12, e13, e14, e15⟩ := h2
    subst e0 e1 e2 e3 e4 e5 e6 e7 e8 e9 e10 e11 e12 e13 e14 e15
    constructor
    · norm_num [ntHashField, ntEmptyCheck, hashDword, toLE32]
    · norm_num [ntHashField, ntEmptyCheck, hashDword, toLE32]
      exact sentinel_ne_hex_nt

/-- Concrete blob whose NT half is the empty NT hash constant and whose LM
half is the empty LM hash constant. -/
def wHashBlob : List Nat := emptyNTBytes ++ emptyLMBytes

theorem C6_witness :
    lmHashField wHashBlob = noPasswordSentinel
    ∧ ntHashField wHashBlob = noPasswordSentinel
    ∧ lmHashField wHashBlob ≠ hexBytes emptyLMBytes
    ∧ ntHashField wHashBlob ≠ hexBytes emptyNTBytes :=
  have h := C6_empty_hash_sentinel 0x31 0xD6 0xCF 0xE0 0xD1 0x6A 0xE9 0x31
    0xB7 0x3C 0x59 0xD7 0xE0 0xC0 0x89 0xC0
    0xAA 0xD3 0xB4 0x35 0xB5 0x14 0x04 0xEE 0xAA 0xD3 0xB4 0x35 0xB5 0x14 0x04 0xEE
    wHashBlob (by decide)
  ⟨(h.1 rfl).1, (h.2.1 rfl).1, (h.1 rfl).2, (h.2.1 rfl).2⟩

/-- DumpExt.c DumpPWHistoryHashes lines 1070-1084: after SamIGetPrivateData
succeeds with dwSize bytes, history decoding runs only when dwSize > 0x3c;
dwHashes = blob[0x3C] / 16 and dwOffset = blob[0x3C]; the slot loop for
j = 1 .. dwHashes runs only when dwHashes > 0 and dwSize > dwOffset + 0x64.
The result lists the history slot indices that are decoded. -/
def historySlotIndices (dwSize : Nat) (blob : List Nat) : List Nat :=
  if 0x3c < dwSize then
    let dwHashes := blob.getD 0x3c 0 / 16
    let dwOffset := blob.getD 0x3c 0
    if 0 < dwHashes ∧ dwOffset + 0x64 < dwSize then
      (List.range dwHashes).map (fun j => j + 1)
    else []
  else []

/-- DumpExt.c DumpPWHistoryHashes lines 1065-1159: no WriteToErrorLog call
occurs anywhere in the per-account history retrieval block, on any of its
paths (too-small blob, zero count, guarded-out slot loop or decoded slots). -/
def historyErrorLog (dwSize : Nat) (blob : List Nat) : List String := []

/-- C7, counterexample: a private-data blob of 62 bytes (> 60) whose count
byte at offset 0x3C is 16 has count / 16 = 1, so the claim requires one
decoded slot, but the additional guard dwSize > blob[0x3C] + 0x64 fails
(62 is not greater than 116) and the code decodes no slot at all. -/
def wHistBlob : List Nat := List.replicate 60 0 ++ [16, 0]

theorem C7_small_blob_decodes_nothing :
    historySlotIndices 62 wHistBlob = []
    ∧ wHistBlob.getD 0x3c 0 / 16 = 1
    ∧ 60 < 62 := by decide

/-- C7 as amended: a blob with returned size at most 60 bytes, or whose count
byte at 0x3C divided by 16 is 0, yields an empty history and no error; when
additionally the returned size exceeds blob[0x3C] + 0x64, the number of
decoded slots equals blob[0x3C] / 16; when it does not, no slot is decoded,
still with no error. -/
theorem C7_history_slot_count (dwSize : Nat) (blob : List Nat) :
    (dwSize ≤ 0x3c → historySlotIndices dwSize blob = [])
    ∧ (blob.getD 0x3c 0 / 16 = 0 → historySlotIndices dwSize blob = [])
    ∧ (0x3c < dwSize → 0 < blob.getD 0x3c 0 / 16 → blob.getD 0x3c 0 + 0x64 < dwSize →
        (historySlotIndices dwSize blob).length = blob.getD 0x3c 0 / 16)
    ∧ (0x3c < dwSize → dwSize ≤ blob.getD 0x3c 0 + 0x64 →
        historySlotIndices dwSize blob = [])
    ∧ historyErrorLog dwSize blob = [] := by
  refine ⟨?_, ?_, ?_, ?_, rfl⟩
  · intro h
    simp only [historySlotIndices]
    rw [if_neg (by omega)]
  · intro h
    simp only [historySlotIndices]
    split_ifs with hd hc
    · exact absurd hc.1 (by omega)
    · rfl
    · rfl
  · intro h1 h2 h3
    simp only [historySlotIndices]
    rw [if_pos h1, if_pos ⟨h2, h3⟩]
    simp
  · intro h1 h2
    simp only [historySlotIndices]
    rw [if_pos h1, if_neg (by omega)]

def wHistBlob2 : List Nat := List.replicate 60 0 ++ [32, 0]

theorem C7_witness :
    (historySlotIndices 200 wHistBlob2).length = wHistBlob2.getD 0x3c 0 / 16
    ∧ historySlotIndices 62 wHistBlob2 = []
    ∧ historySlotIndices 40 wHistBlob2 = []
    ∧ historyErrorLog 200 wHistBlob2 = [] :=
  ⟨(C7_history_slot_count 200 wHistBlob2).2.2.1 (by decide) (by decide) (by decide),
    (C7_history_slot_count 62 wHistBlob2).2.2.2.1 (by decide) (by decide),
    (C7_history_slot_count 40 wHistBlob2).1 (by decide),
    (C7_history_slot_count 200 wHistBlob2).2.2.2.2⟩

/-- Oracle for the two LsarOpenSecret attempts made for one enumerated secret
name: whether the first open (registered length) and the second open
(length + 2) succeed. -/
structure SecretOpenEnv where
  firstOpenOk : Bool
  secondOpenOk : Bool

/-- DumpExt.c DumpLSASecrets lines 470-489 and dumplsa.c DumpLsa lines
199-219: the wide-character byte lengths passed to LsarOpenSecret, in order:
the registered length first, and on failure exactly one retry with the
length increased by 2. -/
def secretOpenLengthsTried (nameBytes : Nat) (env : SecretOpenEnv) : List Nat :=
  if env.firstOpenOk then [nameBytes] else [nameBytes, nameBytes + 2]

/-- Whether the secret ends up opened (first or retried attempt succeeded). -/
def secretOpened (env : SecretOpenEnv) : Bool := env.firstOpenOk || env.secondOpenOk

/-- Whether the per-name loop body gives up on this secret (continue to the
next enumerated name without querying); true exactly when both opens fail,
in both implementations. -/
def secretSkipped (env : SecretOpenEnv) : Bool := !(secretOpened env)

/-- DumpExt.c DumpLSASecrets lines 483-488: when the retried open also fails
the loop body executes a bare continue; no WriteToErrorLog call is made for
the failed name. -/
def dumpExtSecretOpenErrors (env : SecretOpenEnv) : List String := []

def msgLsarOpenSecretFailed : String := "LsarOpenSecret failed"

/-- dumplsa.c DumpLsa lines 211-218: when the retried open also fails, the
text LsarOpenSecret failed is sent down the output pipe before continuing
with the next name. -/
def dumpLsaSecretOpenErrors (env : SecretOpenEnv) : List String :=
  if env.firstOpenOk || env.secondOpenOk then [] else [msgLsarOpenSecretFailed]

/-- C8, counterexample: when both open attempts fail for a name, DumpExt.c
DumpLSASecrets records no error at all for that name, while the claim
requires one; dumplsa.c does record one. -/
theorem C8_dumpext_silent_give_up :
    secretSkipped ⟨false, false⟩ = true
    ∧ dumpExtSecretOpenErrors ⟨false, false⟩ = []
    ∧ dumpLsaSecretOpenErrors ⟨false, false⟩ = [msgLsarOpenSecretFailed] := by
  refine ⟨rfl, rfl, rfl⟩

/-- C8 as amended: the open is attempted first with the registered
length-prefixed encoding; on failure it is retried exactly once with the
length increased by 2; only when the retry also fails is the secret given up
on.  dumplsa.c records an error for the failed name; DumpExt.c
DumpLSASecrets silently skips to the next name without recording one. -/
theorem C8_secret_open_retry (nameBytes : Nat) (env : SecretOpenEnv) :
    (env.firstOpenOk = true → secretOpenLengthsTried nameBytes env = [nameBytes])
    ∧ (env.firstOpenOk = false →
        secretOpenLengthsTried nameBytes env = [nameBytes, nameBytes + 2])
    ∧ (secretOpened env = true → secretSkipped env = false)
    ∧ (secretOpened env = false →
        secretSkipped env = true
        ∧ dumpLsaSecretOpenErrors env = [msgLsarOpenSecretFailed]
        ∧ dumpExtSecretOpenErrors env = []) := by
  obtain ⟨f, s⟩ := env
  cases f <;> cases s <;>
    simp [secretOpenLengthsTried, secretOpened, secretSkipped,
      dumpLsaSecretOpenErrors, dumpExtSecretOpenErrors]

theorem C8_witness :
    secretOpenLengthsTried 10 ⟨false, true⟩ = [10, 12]
    ∧ secretSkipped ⟨false, true⟩ = false :=
  ⟨(C8_secret_open_retry 10 ⟨false, true⟩).2.1 rfl,
    (C8_secret_open_retry 10 ⟨false, true⟩).2.2.1 rfl⟩

/-- DumpExt.c IsReadableChar lines 651-663 (identical to dumplsa.c myisprint):
true exactly for bytes from 0x20 to 0x7e. -/
def isReadableChar (n : Nat) : Bool := decide (32 ≤ n) && decide (n ≤ 126)

/-- Character emitted in the ASCII column: the byte itself when readable,
otherwise a dot (0x2e). -/
def asciiChar (b : Nat) : Char := if isReadableChar b then Char.ofNat b else Char.ofNat 46

/-- Hex column rendering: one space and two hex digits per byte, the
" %02X" conversions of the dump format strings. -/
def hexRun : List Nat → String
  | [] => ""
  | b :: rest => " " ++ hexByte b ++ hexRun rest

/-- One full 16-byte output line: 16 space-prefixed hex pairs, two spaces,
then the 16 ASCII-or-dot characters (the sprintf format of DumpSecretData
lines 580-597 and dump_bytes lines 283-302). -/
def fullLine (group : List Nat) : String :=
  hexRun group ++ "  " ++ String.mk (group.map asciiChar)

/-- The final line for a remainder of 1..16 bytes: the hex pairs, then
(16 - count) * 3 + 2 spaces of %*s padding, then the ASCII-or-dot characters
(DumpSecretData lines 613-648, dump_bytes lines 308-328). -/
def partialLine (bytes : List Nat) : String :=
  hexRun bytes ++ String.mk (List.replicate ((16 - bytes.length) * 3 + 2) (Char.ofNat 32))
    ++ String.mk (bytes.map asciiChar)

/-- DumpSecretData lines 578-648 / dump_bytes lines 282-328: the emitted
lines; full lines while more than 16 bytes remain, then one final line for
any remainder. -/
def dumpBytesLines (bytes : List Nat) : List String :=
  if h : 16 < bytes.length then fullLine (bytes.take 16) :: dumpBytesLines (bytes.drop 16)
  else if 0 < bytes.length then [partialLine bytes] else []
termination_by bytes.length
decreasing_by
  simp only [List.length_drop]
  omega

/-- Hex digit characters are 0-9 or A-F. -/
def isHexDigitChar (c : Char) : Bool :=
  (decide (48 ≤ c.toNat) && decide (c.toNat ≤ 57))
    || (decide (65 ≤ c.toNat) && decide (c.toNat ≤ 70))

theorem hexDigit_isHex (n : Nat) (h : n < 16) : isHexDigitChar (hexDigit n) = true := by
  interval_cases n <;> decide

theorem hexByte_length (b : Nat) : (hexByte b).length = 2 := rfl

theorem hexRun_length (bytes : List Nat) : (hexRun bytes).length = 3 * bytes.length := by
  induction bytes with
  | nil => rfl
  | cons b rest ih =>
    have hsp : (" " : String).length = 1 := rfl
    simp only [hexRun, String.length_append, hexByte_length, ih, List.length_cons, hsp]
    omega

theorem partialLine_eq_fullLine (g : List Nat) (h : g.length = 16) :
    partialLine g = fullLine g := by
  unfold partialLine fullLine
  rw [h]
  norm_num
  congr 1

theorem dumpBytesLines_length (bytes : List Nat) :
    (dumpBytesLines bytes).length = (bytes.length + 15) / 16 := by
  induction bytes using dumpBytesLines.induct with
  | case1 bytes h ih =>
    unfold dumpBytesLines
    rw [dif_pos h]
    simp only [List.length_cons, ih, List.length_drop]
    omega
  | case2 bytes h1 h2 =>
    unfold dumpBytesLines
    rw [dif_neg h1, if_pos h2]
    simp only [List.length_cons, List.length_nil]
    omega
  | case3 bytes h1 h2 =>
    unfold dumpBytesLines
    rw [dif_neg h1, if_neg h2]
    simp only [List.length_nil]
    omega

theorem dumpBytesLines_getD (bytes : List Nat) (n : Nat) (h : 16 * (n + 1) ≤ bytes.length) :
    (dumpBytesLines bytes).getD n "" = fullLine (byteSlice bytes (16 * n) 16) := by
  induction bytes using dumpBytesLines.induct generalizing n with
  | case1 bytes hl ih =>
    unfold dumpBytesLines
    rw [dif_pos hl]
    cases n with
    | zero =>
      simp [byteSlice]
    | succ m =>
      have hm : 16 * (m + 1) ≤ (bytes.drop 16).length := by
        simp only [List.length_drop]
        omega
      rw [List.getD_cons_succ, ih m hm]
      unfold byteSlice
      rw [List.drop_drop]
      have he : 16 + 16 * m = 16 * (m + 1) := by ring
      rw [he]
  | case2 bytes h1 h2 =>
    cases n with
    | zero =>
      have hlen : bytes.length = 16 := by omega
      unfold dumpBytesLines
      rw [dif_neg h1, if_pos h2, List.getD_cons_zero, partialLine_eq_fullLine bytes hlen]
      unfold byteSlice
      rw [Nat.mul_zero, List.drop_zero, List.take_of_length_le (by omega)]
    | succ m =>
      exfalso
      omega
  | case3 bytes h1 h2 =>
    exfalso
    omega

/-- C9: the hex-dump formatter emits ceil(len / 16) lines; line n of a blob
long enough to fill groups 0..n is the full-line rendering of group n, which
consists of 16 space-prefixed two-character hex pairs (3 characters per
byte), two separating spaces and exactly 16 trailing characters; each
trailing character is the original byte when it lies in 0x20..0x7e and a dot
otherwise, and each hex pair uses only the digits 0-9A-F. -/
theorem C9_hexdump_shape (bytes : List Nat) (hb : ∀ b ∈ bytes, b < 256) :
    (dumpBytesLines bytes).length = (bytes.length + 15) / 16
    ∧ (∀ n, 16 * (n + 1) ≤ bytes.length →
        (dumpBytesLines bytes).getD n "" = fullLine (byteSlice bytes (16 * n) 16))
    ∧ (∀ group : List Nat, group.length = 16 →
        (hexRun group).length = 3 * 16 ∧ (group.map asciiChar).length = 16)
    ∧ (∀ b ∈ bytes, (hexByte b).length = 2
        ∧ isHexDigitChar (hexDigit (b / 16)) = true
        ∧ isHexDigitChar (hexDigit (b % 16)) = true)
    ∧ (∀ b ∈ bytes, (isReadableChar b = true → asciiChar b = Char.ofNat b)
        ∧ (isReadableChar b = false → asciiChar b = Char.ofNat 46)) := by
  refine ⟨dumpBytesLines_length bytes, dumpBytesLines_getD bytes, ?_, ?_, ?_⟩
  · intro group hg
    constructor
    · rw [hexRun_length, hg]
    · rw [List.length_map, hg]
  · intro b hbmem
    have hblt : b < 256 := hb b hbmem
    refine ⟨hexByte_length b, hexDigit_isHex _ (by omega), hexDigit_isHex _ (by omega)⟩
  · intro b hbmem
    constructor
    · intro hr
      simp [asciiChar, hr]
    · intro hr
      simp [asciiChar, hr]

theorem C9_witness :
    (∀ b ∈ List.range 40, b < 256)
    ∧ (dumpBytesLines (List.range 40)).length = ((List.range 40).length + 15) / 16 :=
  ⟨by decide, (C9_hexdump_shape (List.range 40) (by decide)).1⟩

/-- Outcome of the registry chain DumpLSAInfo uses to read
HKLM\SOFTWARE\Microsoft\Windows NT\CurrentVersion\CurrentVersion:
connection failure, key-open failure, value-read failure, or the value
string. -/
inductive RegOutcome where
  | connectFail : RegOutcome
  | openKeyFail : RegOutcome
  | queryFail : RegOutcome
  | value : String → RegOutcome
  deriving DecidableEq

/-- Observable actions of the DumpLSAInfo body.  The four run actions stand
for the calls to DumpPWCache, DumpLSASecrets, DumpPWHashes and
DumpPWHistoryHashes (whatever those do internally is outside this model);
logError is a WriteToErrorLog call made by DumpLSAInfo itself. -/
inductive LsaAction where
  | runCache : LsaAction
  | runSecrets : LsaAction
  | runHashes : LsaAction
  | runHistory : LsaAction
  | encryptFile : String → LsaAction
  | logError : String → LsaAction
  deriving DecidableEq

def msgCannotOpenHKLM : String := "ERROR! Cannot open registry key HKLM on remote host.\n"

def msgCannotOpenVersionKey : String :=
  "ERROR! Cannot open registry key HKLM\\SOFTWARE\\Microsoft\\Windows NT\\CurrentVersion on remote host.\n"

def msgCannotReadVersionValue : String :=
  "ERROR! Cannot read registry value HKLM\\SOFTWARE\\Microsoft\\Windows NT\\CurrentVersion\\\\CurrentVersion on remote host.\n"

/-- DumpExt.c DumpLSAInfo lines 92-95: szMajorVersion holds the first
character of szCurrentVersion, and atoi of that one-character string is its
digit value for 0..9 and 0 for every other character. -/
def atoiFirstChar (s : String) : Nat :=
  match s.data with
  | [] => 0
  | c :: _ => if 48 ≤ c.toNat ∧ c.toNat ≤ 57 then c.toNat - 48 else 0

/-- DumpExt.c DumpLSAInfo lines 74-116: the registry-gated cache branch.
Each registry failure logs one error; a successfully read value runs
DumpPWCache only when it is nonempty and its first character parses to a
major version greater than 4, and logs nothing itself. -/
def cacheGateActions : RegOutcome → List LsaAction
  | RegOutcome.connectFail => [LsaAction.logError msgCannotOpenHKLM]
  | RegOutcome.openKeyFail => [LsaAction.logError msgCannotOpenVersionKey]
  | RegOutcome.queryFail => [LsaAction.logError msgCannotReadVersionValue]
  | RegOutcome.value s =>
      if s = "" then []
      else if 4 < atoiFirstChar s then [LsaAction.runCache] else []

def pwCacheFile : String := "PWCache.txt"

def lsaSecretsFile : String := "LSASecrets.txt"

def pwHashesFile : String := "PWHashes.txt"

def pwHistoryFile : String := "PWHistoryHashes.txt"

/-- DumpExt.c DumpLSAInfo lines 64-141: the four category blocks in order;
the cache block runs the registry-gated branch then always obfuscates its
output file, and each of the other categories runs unconditionally when its
flag is set. -/
def dumpLSAInfo (bCache bSecrets bHashes bHistory : Bool) (reg : RegOutcome) :
    List LsaAction :=
  (if bCache then cacheGateActions reg ++ [LsaAction.encryptFile pwCacheFile] else [])
    ++ (if bSecrets then [LsaAction.runSecrets, LsaAction.encryptFile lsaSecretsFile] else [])
    ++ (if bHashes then [LsaAction.runHashes, LsaAction.encryptFile pwHashesFile] else [])
    ++ (if bHistory then [LsaAction.runHistory, LsaAction.encryptFile pwHistoryFile] else [])

theorem mem_cacheGate_runCache (reg : RegOutcome) :
    LsaAction.runCache ∈ cacheGateActions reg
      ↔ ∃ v, reg = RegOutcome.value v ∧ v ≠ "" ∧ 4 < atoiFirstChar v := by
  cases reg with
  | connectFail => simp [cacheGateActions]
  | openKeyFail => simp [cacheGateActions]
  | queryFail => simp [cacheGateActions]
  | value s =>
    simp only [cacheGateActions]
    split_ifs with h1 h2
    · simp [h1]
    · simp [h1, h2]
    · simp [h1, h2]

theorem mem_cacheGate_logError (s m : String) :
    LsaAction.logError m ∉ cacheGateActions (RegOutcome.value s) := by
  simp only [cacheGateActions]
  split_ifs <;> simp

theorem cacheGate_no_runSecrets (reg : RegOutcome) :
    LsaAction.runSecrets ∉ cacheGateActions reg := by
  cases reg with
  | connectFail => simp [cacheGateActions]
  | openKeyFail => simp [cacheGateActions]
  | queryFail => simp [cacheGateActions]
  | value s =>
    simp only [cacheGateActions]
    split_ifs <;> simp

theorem cacheGate_no_runHashes (reg : RegOutcome) :
    LsaAction.runHashes ∉ cacheGateActions reg := by
  cases reg with
  | connectFail => simp [cacheGateActions]
  | openKeyFail => simp [cacheGateActions]
  | queryFail => simp [cacheGateActions]
  | value s =>
    simp only [cacheGateActions]
    split_ifs <;> simp

theorem cacheGate_no_runHistory (reg : RegOutcome) :
    LsaAction.runHistory ∉ cacheGateActions reg := by
  cases reg with
  | connectFail => simp [cacheGateActions]
  | openKeyFail => simp [cacheGateActions]
  | queryFail => simp [cacheGateActions]
  | value s =>
    simp only [cacheGateActions]
    split_ifs <;> simp

theorem runCache_mem_iff (bC bS bH bHH : Bool) (reg : RegOutcome) :
    LsaAction.runCache ∈ dumpLSAInfo bC bS bH bHH reg
      ↔ bC = true ∧ LsaAction.runCache ∈ cacheGateActions reg := by
  cases bC <;> cases bS <;> cases bH <;> cases bHH <;> simp [dumpLSAInfo]

theorem logError_mem_iff (bC bS bH bHH : Bool) (reg : RegOutcome) (m : String) :
    LsaAction.logError m ∈ dumpLSAInfo bC bS bH bHH reg
      ↔ bC = true ∧ LsaAction.logError m ∈ cacheGateActions reg := by
  cases bC <;> cases bS <;> cases bH <;> cases bHH <;> simp [dumpLSAInfo]

/-- C10: DumpPWCache runs exactly when the cache flag is set, the
CurrentVersion value is read successfully and is nonempty, and its first
character parses to a major version strictly greater than 4; when the value
is read but the major version is 4 or lower, no cache dump runs and
DumpLSAInfo logs no error; and each of the other three categories runs
exactly when its own flag is set, independent of the registry outcome. -/
theorem C10_cache_version_gate (bC bS bH bHH : Bool) (reg : RegOutcome) :
    (LsaAction.runCache ∈ dumpLSAInfo bC bS bH bHH reg
      ↔ bC = true ∧ ∃ v, reg = RegOutcome.value v ∧ v ≠ "" ∧ 4 < atoiFirstChar v)
    ∧ (∀ v, reg = RegOutcome.value v → atoiFirstChar v ≤ 4 →
        LsaAction.runCache ∉ dumpLSAInfo bC bS bH bHH reg
        ∧ ∀ m, LsaAction.logError m ∉ dumpLSAInfo bC bS bH bHH reg)
    ∧ (LsaAction.runSecrets ∈ dumpLSAInfo bC bS bH bHH reg ↔ bS = true)
    ∧ (LsaAction.runHashes ∈ dumpLSAInfo bC bS bH bHH reg ↔ bH = true)
    ∧ (LsaAction.runHistory ∈ dumpLSAInfo bC bS bH bHH reg ↔ bHH = true) := by
  refine ⟨?_, ?_, ?_, ?_, ?_⟩
  · rw [runCache_mem_iff, mem_cacheGate_runCache]
  · intro v hv hle
    subst hv
    constructor
    · rw [runCache_mem_iff, mem_cacheGate_runCache]
      rintro ⟨-, w, hw, -, hgt⟩
      have : w = v := by
        exact (RegOutcome.value.injEq _ _).mp hw.symm
      subst this
      omega
    · intro m
      rw [logError_mem_iff]
      rintro ⟨-, hmem⟩
      exact mem_cacheGate_logError v m hmem
  · cases bC <;> cases bS <;> cases bH <;> cases bHH <;>
      simp [dumpLSAInfo, cacheGate_no_runSecrets]
  · cases bC <;> cases bS <;> cases bH <;> cases bHH <;>
      simp [dumpLSAInfo, cacheGate_no_runHashes]
  · cases bC <;> cases bS <;> cases bH <;> cases bHH <;>
      simp [dumpLSAInfo, cacheGate_no_runHistory]

theorem C10_witness :
    (LsaAction.runCache ∈ dumpLSAInfo true true true true (RegOutcome.value "5.1"))
    ∧ (LsaAction.runCache ∉ dumpLSAInfo true true true true (RegOutcome.value "4.0"))
    ∧ (LsaAction.runSecrets ∈ dumpLSAInfo true true true true (RegOutcome.value "4.0")) :=
  ⟨(C10_cache_version_gate true true true true (RegOutcome.value "5.1")).1.mpr
      ⟨rfl, "5.1", rfl, by decide, by decide⟩,
    ((C10_cache_version_gate true true true true (RegOutcome.value "4.0")).2.1 "4.0" rfl
      (by decide)).1,
    (C10_cache_version_gate true true true true (RegOutcome.value "4.0")).2.2.1.mpr rfl⟩
